import Mathlib

/-!
Verification of the quota-bounded data-access layer and signal-detection
pipeline of the Bot-3-em-1 repository.  The definitions below are shallow
embeddings of the Python sources: `src/utils/api_client.py` (cache, request
counter, retry loop), `src/modules/regressao_media.py` (regression detector,
name normalization, notification ledger), `src/modules/jogos_elite.py`
(elite detector ledger) and `src/data/regressao_watchlist.py` (risk levels).
Wall-clock instants are modelled as integer seconds, API payloads as opaque
lists of naturals, and configuration values (`Config.*`) as explicit
parameters.
-/

namespace Bot3em1

/-! ## `src/utils/api_client.py` — ApiFootballClient -/

/-- An API response payload (`data = response.json().get("response", [])`),
modelled as an opaque list. -/
abbrev ApiData := List Nat

/-- The `cache_durations` dictionary together with the `.get(cache_type, 300)`
default used by `_is_cache_valid`. -/
def cache_durations (cache_type : String) : Int :=
  if cache_type = "fixtures" then 300
  else if cache_type = "team_stats" then 3600
  else if cache_type = "league_stats" then 7200
  else if cache_type = "team_info" then 86400
  else 300

/-- `_is_cache_valid`: `(time.time() - timestamp) < duration`. -/
def is_cache_valid (now timestamp : Int) (cache_type : String) : Bool :=
  now - timestamp < cache_durations cache_type

/-- The `self.cache` dictionary: key → (value, stored_at). -/
abbrev Cache := String → Option (ApiData × Int)

/-- The empty cache (fresh client, `self.cache = {}`). -/
def empty_cache : Cache := fun _ => none

/-- Dictionary write `self.cache[cache_key] = (data, time.time())`: overwrites
the stored value and the timestamp. -/
def cache_put (c : Cache) (key : String) (value : ApiData) (t : Int) : Cache :=
  fun k => if k = key then some (value, t) else c k

/-- A cache lookup as `_make_request` performs it: `self.cache.get(cache_key)`
followed by `_is_cache_valid`.  Expired entries are treated as absent; nothing
is ever deleted (the cache map is unchanged by lookups). -/
def cache_lookup (c : Cache) (key cache_type : String) (now : Int) : Option ApiData :=
  match c key with
  | none => none
  | some (v, t) => if is_cache_valid now t cache_type then some v else none

/-- Mutable client state relevant to `_make_request`: the request counter
`self.request_count` and the response cache `self.cache`. -/
structure ClientState where
  request_count : Nat
  cache : Cache

/-- Outcome of one `requests.get` call inside the retry loop:
either the transport raised (timeout, connection error — no response object),
or a response arrived with a status code and a body.  `body = none` models a
response whose JSON cannot be parsed (`.json()` raises). -/
inductive HttpOutcome where
  | exn : HttpOutcome
  | resp (status : Nat) (body : Option ApiData) : HttpOutcome

/-- Result of a `_make_request` call: the returned list, the client state
afterwards, how many `requests.get` calls were attempted, how many of them
yielded a response object (each of those runs `self.request_count += 1`),
the backoff waits performed (seconds, pacing delay excluded), and whether a
2xx response was successfully parsed and returned. -/
structure RequestRun where
  value : ApiData
  state : ClientState
  network_attempts : Nat
  responses_received : Nat
  waits : List Nat
  succeeded : Bool

/-- The `for attempt in range(3)` retry loop of `_make_request`.  The list
`outs` supplies the outcome of each successive `requests.get`; `attempt` is
the loop index.  On a 429 the code sleeps `(attempt + 1) * 10` and retries;
on any caught exception (transport error, `raise_for_status` on a status
≥ 400, JSON parse failure) it sleeps `(attempt + 1) * 2` when `attempt < 2`;
on success it writes the cache (when a key was given) and returns the data.
The counter increments exactly when a response object was received. -/
def request_loop (st : ClientState) (ck : Option (String × String)) (now : Int) :
    List HttpOutcome → Nat → RequestRun
  | [], _ => ⟨[], st, 0, 0, [], false⟩
  | o :: rest, attempt =>
    match o with
    | .exn =>
      let r := request_loop st ck now rest (attempt + 1)
      ⟨r.value, r.state, r.network_attempts + 1, r.responses_received,
        (if attempt < 2 then [(attempt + 1) * 2] else []) ++ r.waits, r.succeeded⟩
    | .resp status body =>
      let st2 : ClientState := { st with request_count := st.request_count + 1 }
      if status = 429 then
        let r := request_loop st2 ck now rest (attempt + 1)
        ⟨r.value, r.state, r.network_attempts + 1, r.responses_received + 1,
          (attempt + 1) * 10 :: r.waits, r.succeeded⟩
      else if 400 ≤ status then
        let r := request_loop st2 ck now rest (attempt + 1)
        ⟨r.value, r.state, r.network_attempts + 1, r.responses_received + 1,
          (if attempt < 2 then [(attempt + 1) * 2] else []) ++ r.waits, r.succeeded⟩
      else
        match body with
        | none =>
          let r := request_loop st2 ck now rest (attempt + 1)
          ⟨r.value, r.state, r.network_attempts + 1, r.responses_received + 1,
            (if attempt < 2 then [(attempt + 1) * 2] else []) ++ r.waits, r.succeeded⟩
        | some data =>
          let st3 : ClientState :=
            match ck with
            | some (key, _) => { st2 with cache := cache_put st2.cache key data now }
            | none => st2
          ⟨data, st3, 1, 1, [], true⟩

/-- `_make_request`: consult the cache first (when both `cache_key` and
`cache_type` were given); then the quota gate
`if self.request_count >= Config.MAX_API_REQUESTS: return []`; then the
retry loop with at most 3 attempts.  `max_api_requests` stands for the
`Config.MAX_API_REQUESTS` value the gate reads (an attribute that
`src/config.py` does not actually define). -/
def make_request (st : ClientState) (ck : Option (String × String)) (now : Int)
    (max_api_requests : Nat) (outcomes : List HttpOutcome) : RequestRun :=
  let net : RequestRun :=
    if max_api_requests ≤ st.request_count then ⟨[], st, 0, 0, [], false⟩
    else request_loop st ck now (outcomes.take 3) 0
  match ck with
  | some (key, cache_type) =>
    match st.cache key with
    | some (v, t) =>
      if is_cache_valid now t cache_type then ⟨v, st, 0, 0, [], true⟩ else net
    | none => net
  | none => net

/-- Whether one attempt outcome fails to produce a returned body: a transport
exception, a 429, a status ≥ 400, or an unparsable body. -/
def attempt_fails : HttpOutcome → Bool
  | .exn => true
  | .resp status body => status = 429 || decide (400 ≤ status) || body.isNone

/-- The retry wait schedule as the spec states it: on a 429 at attempt index
`i`, wait `(i+1)*10` seconds; on any other failed attempt, wait `(i+1)*2`
seconds before the next attempt (so not after the final one); stop waiting
once an attempt succeeds. -/
def retry_waits : List HttpOutcome → Nat → List Nat
  | [], _ => []
  | o :: rest, attempt =>
    match o with
    | .exn => (if attempt < 2 then [(attempt + 1) * 2] else []) ++ retry_waits rest (attempt + 1)
    | .resp status body =>
      if status = 429 then (attempt + 1) * 10 :: retry_waits rest (attempt + 1)
      else if 400 ≤ status then
        (if attempt < 2 then [(attempt + 1) * 2] else []) ++ retry_waits rest (attempt + 1)
      else
        match body with
        | none => (if attempt < 2 then [(attempt + 1) * 2] else []) ++ retry_waits rest (attempt + 1)
        | some _ => []

/-- The two `Config` attributes `_make_request` reads, as an attribute
environment: `none` models an attribute the `Config` class lacks, whose read
raises `AttributeError` in Python. -/
structure ConfigEnv where
  max_api_requests : Option Nat
  api_request_delay : Option Nat

/-- The environment `src/config.py` actually provides: it defines neither
`MAX_API_REQUESTS` nor `API_REQUEST_DELAY`. -/
def config_py : ConfigEnv := ⟨none, none⟩

/-- The retry loop with the `Config` attribute reads made explicit: each
iteration first runs the pacing line
`if self.request_count > 0: time.sleep(Config.API_REQUEST_DELAY)`, which
sits before the `try` and so raises an uncaught `AttributeError` (modelled
as `.error`) when the attribute is undefined and the counter is positive;
otherwise the attempt proceeds exactly as in `request_loop`. -/
def request_loop_py (env : ConfigEnv) (st : ClientState) (ck : Option (String × String))
    (now : Int) : List HttpOutcome → Nat → Except String RequestRun
  | [], _ => .ok ⟨[], st, 0, 0, [], false⟩
  | o :: rest, attempt =>
    if 0 < st.request_count ∧ env.api_request_delay = none then
      .error "API_REQUEST_DELAY"
    else
      match o with
      | .exn =>
        match request_loop_py env st ck now rest (attempt + 1) with
        | .error e => .error e
        | .ok r =>
          .ok ⟨r.value, r.state, r.network_attempts + 1, r.responses_received,
            (if attempt < 2 then [(attempt + 1) * 2] else []) ++ r.waits, r.succeeded⟩
      | .resp status body =>
        let st2 : ClientState := { st with request_count := st.request_count + 1 }
        if status = 429 then
          match request_loop_py env st2 ck now rest (attempt + 1) with
          | .error e => .error e
          | .ok r =>
            .ok ⟨r.value, r.state, r.network_attempts + 1, r.responses_received + 1,
              (attempt + 1) * 10 :: r.waits, r.succeeded⟩
        else if 400 ≤ status then
          match request_loop_py env st2 ck now rest (attempt + 1) with
          | .error e => .error e
          | .ok r =>
            .ok ⟨r.value, r.state, r.network_attempts + 1, r.responses_received + 1,
              (if attempt < 2 then [(attempt + 1) * 2] else []) ++ r.waits, r.succeeded⟩
        else
          match body with
          | none =>
            match request_loop_py env st2 ck now rest (attempt + 1) with
            | .error e => .error e
            | .ok r =>
              .ok ⟨r.value, r.state, r.network_attempts + 1, r.responses_received + 1,
                (if attempt < 2 then [(attempt + 1) * 2] else []) ++ r.waits, r.succeeded⟩
          | some data =>
            let st3 : ClientState :=
              match ck with
              | some (key, _) => { st2 with cache := cache_put st2.cache key data now }
              | none => st2
            .ok ⟨data, st3, 1, 1, [], true⟩

/-- `_make_request` with the `Config` attribute reads made explicit: the
cache check runs first and reads no attribute; a cache-missing call then
evaluates the gate `if self.request_count >= Config.MAX_API_REQUESTS`, whose
attribute read raises (modelled as `.error`) when undefined; otherwise the
retry loop runs with the pacing reads of `request_loop_py`. -/
def make_request_py (env : ConfigEnv) (st : ClientState) (ck : Option (String × String))
    (now : Int) (outcomes : List HttpOutcome) : Except String RequestRun :=
  let net : Except String RequestRun :=
    match env.max_api_requests with
    | none => .error "MAX_API_REQUESTS"
    | some max_api_requests =>
      if max_api_requests ≤ st.request_count then .ok ⟨[], st, 0, 0, [], false⟩
      else request_loop_py env st ck now (outcomes.take 3) 0
  match ck with
  | some (key, cache_type) =>
    match st.cache key with
    | some (v, t) =>
      if is_cache_valid now t cache_type then .ok ⟨v, st, 0, 0, [], true⟩ else net
    | none => net
  | none => net

/-- Modelled from the spec: the quota governor's `can_request`, which
`src/main.py` and the spec describe (`used/limit >= block_threshold` refuses,
default threshold `Config.API_BLOCK_THRESHOLD = 0.95`).  The client class
holding this gate is absent from the sources — `main.py` constructs
`ApiFootballClient(key, daily_limit)` and calls `get_daily_usage_stats()`,
neither of which `src/utils/api_client.py` provides — so this definition
follows the spec's words, for comparison with the gate the source code has. -/
def can_request_spec (used limit : Nat) (block_threshold : Rat) : Bool :=
  (used : Rat) / (limit : Rat) < block_threshold

/-! ## `src/modules/regressao_media.py` — RegressaoMediaModule -/

/-- The `goals` sub-object of a fixture as the provider returns it
(`match['goals']`); each side can be `null`. -/
structure MatchGoals where
  home : Option Nat
  away : Option Nat
deriving DecidableEq

/-- One entry of the reply to `get_team_recent_matches(team_id, 1)` (the
`/fixtures` endpoint queried with `status = "FT"`, most recent finished match
first).  `days_ago` is `(datetime.now(utc) - match_date).days` as
`check_team_under_15` computes it from the fixture timestamp. -/
structure LastMatch where
  goals : MatchGoals
  days_ago : Nat
deriving DecidableEq

/-- `goals.get('home', 0) if goals.get('home') is not None else 0`. -/
def goal_or_zero : Option Nat → Nat
  | none => 0
  | some n => n

/-- `is_under_15_result`: total goals of the match strictly below 2. -/
def is_under_15_result (m : LastMatch) : Bool :=
  goal_or_zero m.goals.home + goal_or_zero m.goals.away < 2

/-- `is_exact_0x0_result`: both sides scored exactly 0. -/
def is_exact_0x0_result (m : LastMatch) : Bool :=
  goal_or_zero m.goals.home = 0 && goal_or_zero m.goals.away = 0

/-- The payload `check_team_under_15` returns alongside a positive verdict. -/
structure QualInfo where
  is_0x0 : Bool
  days_ago : Nat
deriving DecidableEq

/-- `check_team_under_15(team_id, team_name)`: take the most recent finished
match (head of the `get_team_recent_matches(team_id, 1)` reply); the team
qualifies when that match was Under 1.5 and at most
`Config.MAX_LAST_MATCH_AGE_DAYS` (`max_age_days`, default 10) days old.
An empty reply means no qualification. -/
def check_team_under_15 (recent_matches : List LastMatch) (max_age_days : Nat) :
    Bool × Option QualInfo :=
  match recent_matches with
  | [] => (false, none)
  | last_match :: _ =>
    if is_under_15_result last_match then
      if last_match.days_ago ≤ max_age_days then
        (true, some ⟨is_exact_0x0_result last_match, last_match.days_ago⟩)
      else (false, none)
    else (false, none)

/-- The per-fixture facts that the scoring block of
`RegressaoMediaModule.execute` consumes: the two `check_team_under_15`
verdicts with their payloads, and the two watchlist memberships. -/
structure RegressaoEval where
  home_under : Bool
  home_info : Option QualInfo
  away_under : Bool
  away_info : Option QualInfo
  home_watchlist : Bool
  away_watchlist : Bool
deriving DecidableEq

/-- Whether the home side contributes the `"Casa 0x0 anterior"` confidence
factor: `if home_under and home_info:` … `if home_info['is_0x0']`. -/
def home_0x0_factor (e : RegressaoEval) : Bool :=
  e.home_under && (match e.home_info with
    | some i => i.is_0x0
    | none => false)

/-- Whether the away side contributes the `"Visitante 0x0 anterior"` factor. -/
def away_0x0_factor (e : RegressaoEval) : Bool :=
  e.away_under && (match e.away_info with
    | some i => i.is_0x0
    | none => false)

/-- The length of the `confidence_factors` list `execute` builds: one entry
per watchlist membership and one per 0x0 verdict (a merely-Under-1.5 last
match adds no entry). -/
def confidence_factors (e : RegressaoEval) : Nat :=
  (if e.home_watchlist then 1 else 0) + (if e.away_watchlist then 1 else 0) +
    (if home_0x0_factor e then 1 else 0) + (if away_0x0_factor e then 1 else 0)

/-- `priority` after the scoring block: `"MÁXIMA"` exactly when some side's
qualifying last match was a 0x0, else `"NORMAL"`. -/
def priority_maxima (e : RegressaoEval) : Bool :=
  home_0x0_factor e || away_0x0_factor e

/-- The confidence tier `execute` computes:
`len(confidence_factors) >= 3` → ALTÍSSIMA; else
`priority == "MÁXIMA" or len(confidence_factors) >= 2` → ALTA; else MÉDIA. -/
def confidence (e : RegressaoEval) : String :=
  if confidence_factors e ≥ 3 then "ALTÍSSIMA"
  else if priority_maxima e || confidence_factors e ≥ 2 then "ALTA"
  else "MÉDIA"

/-- The alert guard `if home_under or away_under:` — a fixture is
alert-eligible only when at least one side passed `check_team_under_15`. -/
def alert_eligible (e : RegressaoEval) : Bool :=
  e.home_under || e.away_under

/-- Modelled from the spec: the tier C7 claims — a function of the count of
the four factors (home qualifies on the last-match check, away qualifies,
home on watchlist, away on watchlist); ≥ 3 → highest tier, exactly 2 → high
tier, fewer than 2 → medium tier. -/
def claim_factor_count (e : RegressaoEval) : Nat :=
  (if e.home_under then 1 else 0) + (if e.away_under then 1 else 0) +
    (if e.home_watchlist then 1 else 0) + (if e.away_watchlist then 1 else 0)

/-- Modelled from the spec: the C7 tier mapping over the claim's factor
count. -/
def claim_tier (n : Nat) : String :=
  if n ≥ 3 then "ALTÍSSIMA" else if n = 2 then "ALTA" else "MÉDIA"

/-- Count of set bits in a factor list. -/
def bcount (l : List Bool) : Nat := (l.filter id).length

/-- The tier rule the code actually implements, phrased over the four factor
booleans (home last-match 0x0, away last-match 0x0, home on watchlist, away
on watchlist): three or more factors give the highest tier; otherwise any
0x0 factor, or two factors, give the high tier; otherwise the medium tier. -/
def amended_tier (h0 a0 hw aw : Bool) : String :=
  if bcount [h0, a0, hw, aw] ≥ 3 then "ALTÍSSIMA"
  else if h0 || a0 || bcount [h0, a0, hw, aw] ≥ 2 then "ALTA"
  else "MÉDIA"

/-! ## Notification ledger (dedup sets of both detector modules)

`RegressaoMediaModule` keeps `self.notified_matches` with keys
`f"regressao_{today}_{fixture_id}"`; `JogosEliteModule` keeps
`self.notified_fixtures` keyed by fixture id.  Both follow the same
discipline: skip a match whose key is in the set, attempt the outbound send
otherwise, and add the key only when the send reported success. -/

/-- The membership test `if notification_key not in self.notified_matches`
(resp. `if fixture_id in self.notified_fixtures: continue`). -/
def should_notify (key : String) (notified : List String) : Bool :=
  !notified.contains key

/-- `self.notified_matches.add(notification_key)`. -/
def mark_notified (key : String) (notified : List String) : List String :=
  key :: notified

/-- One alert-eligible match reaching the dedup check in `execute`: its
ledger key and whether `telegram_client.send_message` reports success. -/
structure MatchAttempt where
  key : String
  send_ok : Bool

/-- The dedup discipline of `execute` over one run's eligible matches:
a match whose key is in the set is skipped; otherwise the send is attempted,
and on success the key is added to the set.  Returns the final set and the
keys of the alerts actually sent, in order. -/
def run_ledger : List MatchAttempt → List String → List String × List String
  | [], notified => (notified, [])
  | m :: rest, notified =>
    if should_notify m.key notified then
      if m.send_ok then
        let r := run_ledger rest (mark_notified m.key notified)
        (r.1, m.key :: r.2)
      else run_ledger rest notified
    else run_ledger rest notified

/-! ## `normalize_name` (identical in `src/modules/regressao_media.py` and
`src/modules/jogos_elite.py`)

The Python function runs `unicodedata.normalize('NFKD', name)`, drops
combining characters, lower-cases, strips everything outside
`[a-zA-Z0-9\s]`, and collapses whitespace via `' '.join(name.split())`.
The Unicode tables are modelled at the character level: ASCII characters are
NFKD-fixed (as in Unicode), and the decomposition table covers the Latin-1
accented letters appearing in the configured team names. -/

/-- Python `\s` / `str.split()` whitespace, restricted to the ASCII
whitespace characters. -/
def is_py_space (c : Char) : Bool :=
  c.toNat = 32 || c.toNat = 9 || c.toNat = 10 || c.toNat = 13 || c.toNat = 11 || c.toNat = 12

/-- Character-level model of `unicodedata.normalize('NFKD', ·)`: ASCII and
unlisted characters decompose to themselves; the listed precomposed Latin
letters decompose to base letter plus combining mark. -/
def nfkd_char (c : Char) : List Char :=
  if c.toNat < 192 then [c]
  else if c = 'á' then ['a', '́'] else if c = 'à' then ['a', '̀']
  else if c = 'â' then ['a', '̂'] else if c = 'ã' then ['a', '̃']
  else if c = 'ä' then ['a', '̈'] else if c = 'ç' then ['c', '̧']
  else if c = 'é' then ['e', '́'] else if c = 'ê' then ['e', '̂']
  else if c = 'í' then ['i', '́'] else if c = 'ó' then ['o', '́']
  else if c = 'ô' then ['o', '̂'] else if c = 'õ' then ['o', '̃']
  else if c = 'ö' then ['o', '̈'] else if c = 'ú' then ['u', '́']
  else if c = 'ü' then ['u', '̈'] else if c = 'ñ' then ['n', '̃']
  else if c = 'Á' then ['A', '́'] else if c = 'Ã' then ['A', '̃']
  else if c = 'Ç' then ['C', '̧'] else if c = 'É' then ['E', '́']
  else if c = 'Í' then ['I', '́'] else if c = 'Ó' then ['O', '́']
  else if c = 'Õ' then ['O', '̃'] else if c = 'Ú' then ['U', '́']
  else [c]

/-- Model of `unicodedata.combining(c) != 0`: the combining diacritical
marks block U+0300–U+036F (where every mark produced by `nfkd_char` lives). -/
def is_combining (c : Char) : Bool :=
  768 ≤ c.toNat && c.toNat ≤ 879

/-- Model of `str.lower()` restricted to ASCII: `A`–`Z` shift by 32, all
other characters unchanged.  (Non-ASCII cased letters that survive the
accent stripping are removed by the `[^a-zA-Z0-9\s]` filter in either case,
so the restriction is not observable in `normalize_name`.) -/
def py_lower (c : Char) : Char :=
  if 65 ≤ c.toNat ∧ c.toNat ≤ 90 then Char.ofNat (c.toNat + 32) else c

/-- The character class kept by `re.sub(r'[^a-zA-Z0-9\s]', '', ·)`. -/
def is_kept (c : Char) : Bool :=
  (97 ≤ c.toNat && c.toNat ≤ 122) || (65 ≤ c.toNat && c.toNat ≤ 90) ||
    (48 ≤ c.toNat && c.toNat ≤ 57) || is_py_space c

/-- The first three steps of `normalize_name`: NFKD, drop combining marks,
lower-case, filter the kept class. -/
def clean (l : List Char) : List Char :=
  (((l.flatMap nfkd_char).filter (fun c => !is_combining c)).map py_lower).filter is_kept

/-- Accumulator worker for `str.split()`: breaks a character list into its
maximal whitespace-free runs. -/
def words_go : List Char → List Char → List (List Char)
  | [], cur => if cur.isEmpty then [] else [cur.reverse]
  | c :: rest, cur =>
    if is_py_space c then
      if cur.isEmpty then words_go rest [] else cur.reverse :: words_go rest []
    else words_go rest (c :: cur)

/-- `str.split()` with no argument: whitespace-separated words, empties
dropped. -/
def words (l : List Char) : List (List Char) :=
  words_go l []

/-- `' '.join(ws)`. -/
def join_words : List (List Char) → List Char
  | [] => []
  | [w] => w
  | w :: ws => w ++ ' ' :: join_words ws

/-- `normalize_name` on a character list. -/
def normalize_name (l : List Char) : List Char :=
  join_words (words (clean l))

/-- `normalize_name` on strings (`''` for falsy input is subsumed: the
pipeline maps the empty string to itself). -/
def normalize_name_str (s : String) : String :=
  ⟨normalize_name s.data⟩

/-! ## `src/data/regressao_watchlist.py` — calculate_risk_level -/

/-- ASCII decimal digit. -/
def is_digit (c : Char) : Bool :=
  48 ≤ c.toNat && c.toNat ≤ 57

/-- Numeric value of a digit run (most significant first). -/
def digits_value (l : List Char) : Nat :=
  l.foldl (fun a c => a * 10 + (c.toNat - 48)) 0

/-- Parse an unsigned Python decimal literal: digits with an optional single
point, at least one digit overall (`"2.63"`, `"12."`, `".5"`). -/
def parse_unsigned (l : List Char) : Option Rat :=
  let int_part := l.takeWhile is_digit
  match l.dropWhile is_digit with
  | [] => if int_part.isEmpty then none else some (digits_value int_part)
  | '.' :: frac =>
    if frac.all is_digit && !(int_part.isEmpty && frac.isEmpty) then
      some ((digits_value int_part : Rat) +
        (digits_value frac : Rat) / ((10 : Rat) ^ frac.length))
    else none
  | _ => none

/-- Model of Python `float(s)` on plain decimal literals: surrounding ASCII
whitespace and an optional sign are allowed; exponent, infinity and NaN forms
are outside the modelled grammar and map to a parse failure. -/
def py_float (l : List Char) : Option Rat :=
  let t := ((l.dropWhile is_py_space).reverse.dropWhile is_py_space).reverse
  match t with
  | '-' :: r => (parse_unsigned r).map (fun q => -q)
  | '+' :: r => parse_unsigned r
  | r => parse_unsigned r

/-- `empates_0x0_str.replace('%', '')`: removes every percent sign. -/
def strip_pct (l : List Char) : List Char :=
  l.filter (fun c => c ≠ '%')

/-- `calculate_risk_level(empates_0x0_str, odd_justa)`: parse the percentage
(any failure is caught by the bare `except` and yields `"DESCONHECIDO"`),
then the two-threshold ladder. -/
def calculate_risk_level (empates_0x0_str : String) (odd_justa : Rat) : String :=
  match py_float (strip_pct empates_0x0_str.data) with
  | none => "DESCONHECIDO"
  | some empates_pct =>
    if empates_pct ≤ 5 ∧ odd_justa ≤ 1 then "BAIXO"
    else if empates_pct ≤ 7 ∧ odd_justa ≤ 3 then "MODERADO"
    else "ALTO"

/-- The character class that `normalize_name` can emit: lower-case ASCII
letters, ASCII digits, and the single space the word join inserts. -/
def is_base (c : Char) : Prop :=
  (97 ≤ c.toNat ∧ c.toNat ≤ 122) ∨ (48 ≤ c.toNat ∧ c.toNat ≤ 57) ∨ c.toNat = 32

/-! ## Helper lemmas -/

theorem toNat_ofNat_lt (n : Nat) (h : n < 55296) : (Char.ofNat n).toNat = n := by
  simp [Char.ofNat, Nat.isValidChar, h, Char.ofNatAux, Char.toNat, UInt32.toNat,
    BitVec.toNat_ofNatLt]

theorem nfkd_char_fix {c : Char} (h : c.toNat < 192) : nfkd_char c = [c] := by
  unfold nfkd_char
  rw [if_pos h]

theorem is_combining_low {c : Char} (h : c.toNat < 768) : is_combining c = false := by
  simp only [is_combining, Bool.and_eq_false_iff]
  left
  simpa using by omega

theorem py_lower_toNat (c : Char) :
    (py_lower c).toNat = if 65 ≤ c.toNat ∧ c.toNat ≤ 90 then c.toNat + 32 else c.toNat := by
  unfold py_lower
  split
  · rename_i h
    rw [toNat_ofNat_lt]
    omega
  · rfl

theorem py_lower_fix {c : Char} (h : ¬(65 ≤ c.toNat ∧ c.toNat ≤ 90)) : py_lower c = c := by
  unfold py_lower
  rw [if_neg h]

theorem py_lower_not_upper (c : Char) :
    ¬(65 ≤ (py_lower c).toNat ∧ (py_lower c).toNat ≤ 90) := by
  rw [py_lower_toNat]
  split <;> omega

theorem is_py_space_iff (c : Char) :
    is_py_space c = true ↔ (c.toNat = 32 ∨ c.toNat = 9 ∨ c.toNat = 10 ∨ c.toNat = 13 ∨
      c.toNat = 11 ∨ c.toNat = 12) := by
  simp [is_py_space]
  omega

theorem is_kept_iff (c : Char) :
    is_kept c = true ↔ ((97 ≤ c.toNat ∧ c.toNat ≤ 122) ∨ (65 ≤ c.toNat ∧ c.toNat ≤ 90) ∨
      (48 ≤ c.toNat ∧ c.toNat ≤ 57) ∨ is_py_space c = true) := by
  simp [is_kept]
  tauto

theorem mem_clean {c : Char} {l : List Char} (h : c ∈ clean l) :
    is_kept c = true ∧ ¬(65 ≤ c.toNat ∧ c.toNat ≤ 90) := by
  unfold clean at h
  have h1 := List.of_mem_filter h
  have h2 := List.mem_of_mem_filter h
  obtain ⟨d, _, hd⟩ := List.mem_map.mp h2
  exact ⟨h1, hd ▸ py_lower_not_upper d⟩

theorem base_of_clean {c : Char} {l : List Char} (hmem : c ∈ clean l)
    (hws : is_py_space c = false) : is_base c := by
  obtain ⟨hk, hup⟩ := mem_clean hmem
  rw [is_kept_iff] at hk
  rw [hws] at hk
  unfold is_base
  rcases hk with h | h | h | h
  · exact Or.inl h
  · exact absurd h hup
  · exact Or.inr (Or.inl h)
  · simp at h

theorem base_toNat_le {c : Char} (h : is_base c) : c.toNat ≤ 122 := by
  rcases h with h | h | h <;> omega

theorem clean_fix {l : List Char} (h : ∀ c ∈ l, is_base c) : clean l = l := by
  unfold clean
  have h1 : l.flatMap nfkd_char = l := by
    induction l with
    | nil => rfl
    | cons c rest ih =>
      have hc := h c (by simp)
      have hrest : ∀ c ∈ rest, is_base c := fun d hd => h d (by simp [hd])
      simp [List.flatMap_cons, nfkd_char_fix (by have := base_toNat_le hc; omega : c.toNat < 192),
        ih hrest]
  rw [h1]
  have h2 : l.filter (fun c => !is_combining c) = l := by
    rw [List.filter_eq_self]
    intro c hc
    have := base_toNat_le (h c hc)
    simp [is_combining_low (by omega : c.toNat < 768)]
  rw [h2]
  have h3 : l.map py_lower = l := by
    have : ∀ c ∈ l, py_lower c = c := by
      intro c hc
      rcases h c hc with hb | hb | hb <;> exact py_lower_fix (by omega)
    calc l.map py_lower = l.map id := List.map_congr_left this
    _ = l := List.map_id l
  rw [h3]
  rw [List.filter_eq_self]
  intro c hc
  rw [is_kept_iff]
  rcases h c hc with hb | hb | hb
  · exact Or.inl hb
  · exact Or.inr (Or.inr (Or.inl hb))
  · exact Or.inr (Or.inr (Or.inr (by rw [is_py_space_iff]; omega)))

theorem words_go_no_ws (l : List Char) :
    ∀ cur : List Char, (∀ c ∈ cur, is_py_space c = false) →
      ∀ w ∈ words_go l cur, w ≠ [] ∧ ∀ c ∈ w, is_py_space c = false := by
  induction l with
  | nil =>
    intro cur hcur w hw
    by_cases hc : cur.isEmpty
    · simp [words_go, hc] at hw
    · simp [words_go, hc] at hw
      subst hw
      constructor
      · simpa [List.isEmpty_iff] using hc
      · intro c hc2
        exact hcur c (List.mem_reverse.mp hc2)
  | cons c rest ih =>
    intro cur hcur w hw
    by_cases hsp : is_py_space c
    · by_cases hc : cur.isEmpty
      · simp only [words_go, hsp, if_true, hc] at hw
        exact ih [] (by simp) w hw
      · simp only [words_go, hsp, if_true] at hw
        rw [if_neg hc] at hw
        rcases List.mem_cons.mp hw with hw | hw
        · subst hw
          constructor
          · simpa [List.isEmpty_iff] using hc
          · intro d hd
            exact hcur d (List.mem_reverse.mp hd)
        · exact ih [] (by simp) w hw
    · simp only [words_go, hsp, if_false] at hw
      refine ih (c :: cur) ?_ w hw
      intro d hd
      rcases List.mem_cons.mp hd with hd | hd
      · subst hd
        simpa using hsp
      · exact hcur d hd

theorem words_go_subset (l : List Char) :
    ∀ (cur : List Char) (w : List Char), w ∈ words_go l cur →
      ∀ c ∈ w, c ∈ l ∨ c ∈ cur := by
  induction l with
  | nil =>
    intro cur w hw c hc
    by_cases hce : cur.isEmpty
    · simp [words_go, hce] at hw
    · simp [words_go, hce] at hw
      subst hw
      exact Or.inr (List.mem_reverse.mp hc)
  | cons a rest ih =>
    intro cur w hw c hc
    by_cases hsp : is_py_space a
    · by_cases hce : cur.isEmpty
      · simp only [words_go, hsp, if_true, hce] at hw
        rcases ih [] w hw c hc with h | h
        · exact Or.inl (by simp [h])
        · simp at h
      · simp only [words_go, hsp, if_true] at hw
        rw [if_neg hce] at hw
        rcases List.mem_cons.mp hw with hw | hw
        · subst hw
          exact Or.inr (List.mem_reverse.mp hc)
        · rcases ih [] w hw c hc with h | h
          · exact Or.inl (by simp [h])
          · simp at h
    · simp only [words_go, hsp, if_false] at hw
      rcases ih (a :: cur) w hw c hc with h | h
      · exact Or.inl (by simp [h])
      · rcases List.mem_cons.mp h with h | h
        · exact Or.inl (by simp [h])
        · exact Or.inr h

theorem words_go_append (w : List Char) :
    ∀ (t cur : List Char), (∀ c ∈ w, is_py_space c = false) →
      words_go (w ++ t) cur = words_go t (w.reverse ++ cur) := by
  induction w with
  | nil => intro t cur _; simp
  | cons c w2 ih =>
    intro t cur hws
    have hc : is_py_space c = false := hws c (by simp)
    simp only [List.cons_append, words_go, hc, Bool.false_eq_true, if_false, List.append_eq]
    rw [ih t (c :: cur) (fun d hd => hws d (by simp [hd]))]
    congr 1
    simp

theorem words_join (ws : List (List Char)) :
    (∀ w ∈ ws, w ≠ [] ∧ ∀ c ∈ w, is_py_space c = false) →
      words (join_words ws) = ws := by
  induction ws with
  | nil => intro _; rfl
  | cons w ws2 ih =>
    intro h
    have hw := h w (by simp)
    have hrev : ¬(w.reverse.isEmpty = true) := by
      simpa [List.isEmpty_iff] using hw.1
    cases ws2 with
    | nil =>
      show words_go (join_words [w]) [] = [w]
      have : join_words [w] = w ++ [] := by simp [join_words]
      rw [this, words_go_append w [] [] hw.2]
      simp only [words_go, List.append_nil]
      rw [if_neg hrev]
      simp
    | cons w2 ws3 =>
      show words_go (join_words (w :: w2 :: ws3)) [] = w :: w2 :: ws3
      have hjoin : join_words (w :: w2 :: ws3) = w ++ (' ' :: join_words (w2 :: ws3)) := by
        simp [join_words]
      rw [hjoin, words_go_append w (' ' :: join_words (w2 :: ws3)) [] hw.2]
      have hsp : is_py_space ' ' = true := rfl
      simp only [words_go, hsp, if_true, List.append_nil]
      rw [if_neg hrev]
      rw [List.reverse_reverse]
      rw [show words_go (join_words (w2 :: ws3)) [] = w2 :: ws3 from
        ih (fun u hu => h u (by simp [hu]))]

theorem join_words_mem (ws : List (List Char)) :
    ∀ c ∈ join_words ws, (∃ w ∈ ws, c ∈ w) ∨ c.toNat = 32 := by
  induction ws with
  | nil => intro c hc; simp [join_words] at hc
  | cons w ws2 ih =>
    intro c hc
    cases ws2 with
    | nil =>
      simp only [join_words] at hc
      exact Or.inl ⟨w, by simp, hc⟩
    | cons w2 ws3 =>
      have : join_words (w :: w2 :: ws3) = w ++ (' ' :: join_words (w2 :: ws3)) := by
        simp [join_words]
      rw [this] at hc
      rcases List.mem_append.mp hc with h | h
      · exact Or.inl ⟨w, by simp, h⟩
      · rcases List.mem_cons.mp h with h | h
        · subst h; exact Or.inr rfl
        · rcases ih c h with ⟨u, hu, hcu⟩ | h2
          · exact Or.inl ⟨u, by simp [hu], hcu⟩
          · exact Or.inr h2

theorem normalize_chars_base (l : List Char) :
    ∀ c ∈ normalize_name l, is_base c := by
  intro c hc
  unfold normalize_name at hc
  rcases join_words_mem (words (clean l)) c hc with ⟨w, hw, hcw⟩ | h32
  · have hno := words_go_no_ws (clean l) [] (by simp) w hw
    have hsub := words_go_subset (clean l) [] w hw c hcw
    rcases hsub with hs | hs
    · exact base_of_clean hs (hno.2 c hcw)
    · simp at hs
  · exact Or.inr (Or.inr h32)

theorem normalize_words_ok (l : List Char) :
    ∀ w ∈ words (clean l), w ≠ [] ∧ ∀ c ∈ w, is_py_space c = false :=
  fun w hw => words_go_no_ws (clean l) [] (by simp) w hw

theorem normalize_name_idem (l : List Char) :
    normalize_name (normalize_name l) = normalize_name l := by
  have hbase := normalize_chars_base l
  have h1 : clean (normalize_name l) = normalize_name l := clean_fix hbase
  show join_words (words (clean (normalize_name l))) = normalize_name l
  rw [h1]
  show join_words (words (join_words (words (clean l)))) = normalize_name l
  rw [words_join (words (clean l)) (normalize_words_ok l)]
  rfl

theorem request_loop_count (outs : List HttpOutcome) :
    ∀ (st : ClientState) (ck : Option (String × String)) (now : Int) (i : Nat),
      (request_loop st ck now outs i).state.request_count
        = st.request_count + (request_loop st ck now outs i).responses_received := by
  induction outs with
  | nil => intro st ck now i; simp [request_loop]
  | cons o rest ih =>
    intro st ck now i
    cases o with
    | exn =>
      simpa [request_loop] using ih st ck now (i + 1)
    | resp status body =>
      simp only [request_loop]
      split
      · have h := ih { st with request_count := st.request_count + 1 } ck now (i + 1)
        simp at h ⊢
        omega
      · split
        · have h := ih { st with request_count := st.request_count + 1 } ck now (i + 1)
          simp at h ⊢
          omega
        · cases body with
          | none =>
            have h := ih { st with request_count := st.request_count + 1 } ck now (i + 1)
            simp at h ⊢
            omega
          | some data =>
            cases ck with
            | none => simp
            | some p => simp

theorem request_loop_attempts (outs : List HttpOutcome) :
    ∀ (st : ClientState) (ck : Option (String × String)) (now : Int) (i : Nat),
      (request_loop st ck now outs i).network_attempts ≤ outs.length := by
  induction outs with
  | nil => intro st ck now i; simp [request_loop]
  | cons o rest ih =>
    intro st ck now i
    cases o with
    | exn =>
      have h := ih st ck now (i + 1)
      simp only [request_loop, List.length_cons]
      omega
    | resp status body =>
      simp only [request_loop, List.length_cons]
      split
      · have h := ih { st with request_count := st.request_count + 1 } ck now (i + 1)
        simp only [] at h ⊢
        simp
        omega
      · split
        · have h := ih { st with request_count := st.request_count + 1 } ck now (i + 1)
          simp
          omega
        · cases body with
          | none =>
            have h := ih { st with request_count := st.request_count + 1 } ck now (i + 1)
            simp
            omega
          | some data => simp

theorem request_loop_waits (outs : List HttpOutcome) :
    ∀ (st : ClientState) (ck : Option (String × String)) (now : Int) (i : Nat),
      (request_loop st ck now outs i).waits = retry_waits outs i := by
  induction outs with
  | nil => intro st ck now i; simp [request_loop, retry_waits]
  | cons o rest ih =>
    intro st ck now i
    cases o with
    | exn => simp [request_loop, retry_waits, ih]
    | resp status body =>
      simp only [request_loop, retry_waits]
      split
      · simp [ih]
      · split
        · simp [ih]
        · cases body with
          | none => simp [ih]
          | some data => simp

theorem request_loop_fail_soft (outs : List HttpOutcome) :
    ∀ (st : ClientState) (ck : Option (String × String)) (now : Int) (i : Nat),
      outs.all attempt_fails = true →
        (request_loop st ck now outs i).value = [] ∧
        (request_loop st ck now outs i).succeeded = false := by
  induction outs with
  | nil => intro st ck now i _; simp [request_loop]
  | cons o rest ih =>
    intro st ck now i hall
    simp only [List.all_cons, Bool.and_eq_true] at hall
    cases o with
    | exn => simpa [request_loop] using ih st ck now (i + 1) hall.2
    | resp status body =>
      simp only [request_loop]
      split
      · simpa using ih { st with request_count := st.request_count + 1 } ck now (i + 1) hall.2
      · split
        · simpa using ih { st with request_count := st.request_count + 1 } ck now (i + 1) hall.2
        · cases body with
          | none =>
            simpa using ih { st with request_count := st.request_count + 1 } ck now (i + 1) hall.2
          | some data =>
            exfalso
            rename_i h429 h400
            simp [attempt_fails] at hall
            omega

theorem make_request_count (st : ClientState) (ck : Option (String × String)) (now : Int)
    (maxr : Nat) (outs : List HttpOutcome) :
    (make_request st ck now maxr outs).state.request_count
      = st.request_count + (make_request st ck now maxr outs).responses_received := by
  have hnet : ((if maxr ≤ st.request_count then (⟨[], st, 0, 0, [], false⟩ : RequestRun)
      else request_loop st ck now (outs.take 3) 0)).state.request_count
      = st.request_count + ((if maxr ≤ st.request_count then (⟨[], st, 0, 0, [], false⟩ : RequestRun)
      else request_loop st ck now (outs.take 3) 0)).responses_received := by
    split
    · simp
    · exact request_loop_count (outs.take 3) st ck now 0
  unfold make_request
  cases ck with
  | none => exact hnet
  | some p =>
    obtain ⟨key, ct⟩ := p
    cases hc : st.cache key with
    | none => simpa [hc] using hnet
    | some vt =>
      obtain ⟨v, t⟩ := vt
      simp only [hc]
      split
      · simp
      · exact hnet

theorem make_request_attempts (st : ClientState) (ck : Option (String × String)) (now : Int)
    (maxr : Nat) (outs : List HttpOutcome) :
    (make_request st ck now maxr outs).network_attempts ≤ 3 := by
  have hloop := request_loop_attempts (outs.take 3) st ck now 0
  have hlen : (outs.take 3).length ≤ 3 := by
    simp [List.length_take]
  have hnet : ((if maxr ≤ st.request_count then (⟨[], st, 0, 0, [], false⟩ : RequestRun)
      else request_loop st ck now (outs.take 3) 0)).network_attempts ≤ 3 := by
    split
    · simp
    · omega
  unfold make_request
  cases ck with
  | none => exact hnet
  | some p =>
    obtain ⟨key, ct⟩ := p
    cases hc : st.cache key with
    | none => simpa [hc] using hnet
    | some vt =>
      obtain ⟨v, t⟩ := vt
      simp only [hc]
      split
      · simp
      · exact hnet

theorem request_loop_py_ok (outs : List HttpOutcome) :
    ∀ (m : Option Nat) (d : Nat) (st : ClientState) (ck : Option (String × String))
      (now : Int) (i : Nat),
      request_loop_py ⟨m, some d⟩ st ck now outs i = .ok (request_loop st ck now outs i) := by
  induction outs with
  | nil => intro m d st ck now i; rfl
  | cons o rest ih =>
    intro m d st ck now i
    have hcond : ¬(0 < st.request_count ∧ (⟨m, some d⟩ : ConfigEnv).api_request_delay = none) := by
      simp
    cases o with
    | exn =>
      simp only [request_loop_py, request_loop]
      rw [if_neg hcond, ih m d st ck now (i + 1)]
    | resp status body =>
      simp only [request_loop_py, request_loop]
      rw [if_neg hcond]
      split
      · rw [ih m d { st with request_count := st.request_count + 1 } ck now (i + 1)]
      · split
        · rw [ih m d { st with request_count := st.request_count + 1 } ck now (i + 1)]
        · cases body with
          | none => rw [ih m d { st with request_count := st.request_count + 1 } ck now (i + 1)]
          | some data => rfl

theorem make_request_py_ok (maxr d : Nat) (st : ClientState) (ck : Option (String × String))
    (now : Int) (outs : List HttpOutcome) :
    make_request_py ⟨some maxr, some d⟩ st ck now outs
      = .ok (make_request st ck now maxr outs) := by
  have hnet :
      (match (⟨some maxr, some d⟩ : ConfigEnv).max_api_requests with
        | none => (.error "MAX_API_REQUESTS" : Except String RequestRun)
        | some max_api_requests =>
          if max_api_requests ≤ st.request_count then .ok ⟨[], st, 0, 0, [], false⟩
          else request_loop_py ⟨some maxr, some d⟩ st ck now (outs.take 3) 0)
      = .ok (if maxr ≤ st.request_count then (⟨[], st, 0, 0, [], false⟩ : RequestRun)
          else request_loop st ck now (outs.take 3) 0) := by
    simp only []
    split
    · rfl
    · exact request_loop_py_ok (outs.take 3) (some maxr) d st ck now 0
  unfold make_request_py make_request
  cases ck with
  | none => exact hnet
  | some p =>
    obtain ⟨key, ct⟩ := p
    cases hc : st.cache key with
    | none => simpa [hc] using hnet
    | some vt =>
      obtain ⟨v, t⟩ := vt
      simp only [hc]
      split
      · rfl
      · exact hnet

theorem run_ledger_count_le (k : String) (ms : List MatchAttempt) :
    ∀ notified : List String,
      (run_ledger ms notified).2.count k ≤ (if k ∈ notified then 0 else 1) := by
  induction ms with
  | nil =>
    intro notified
    simp only [run_ledger, List.count_nil]
    split <;> simp
  | cons m rest ih =>
    intro notified
    by_cases hmem : m.key ∈ notified
    · simpa [run_ledger, should_notify, hmem] using ih notified
    · have hcont : notified.contains m.key = false := by
        simpa using hmem
      by_cases hok : m.send_ok
      · simp only [run_ledger, should_notify, hcont, Bool.not_false, if_true, hok,
          List.count_cons]
        by_cases hk : k = m.key
        · have h2 := ih (mark_notified m.key notified)
          rw [hk] at h2 ⊢
          rw [if_pos (show m.key ∈ mark_notified m.key notified by simp [mark_notified])] at h2
          rw [if_neg hmem]
          simp only [beq_self_eq_true, if_true]
          omega
        · have h2 := ih (mark_notified m.key notified)
          have hmm : (k ∈ mark_notified m.key notified) ↔ k ∈ notified := by
            simp [mark_notified, hk]
          have hbeq : (m.key == k) = false := by
            simpa using fun e => hk e.symm
          rw [hbeq]
          simp only [Bool.false_eq_true, if_false, Nat.add_zero]
          by_cases hmem2 : k ∈ notified
          · rw [if_pos hmem2]
            rw [if_pos (hmm.mpr hmem2)] at h2
            exact h2
          · rw [if_neg hmem2]
            rw [if_neg (fun hc => hmem2 (hmm.mp hc))] at h2
            exact h2
      · simpa [run_ledger, should_notify, hmem, hok] using ih notified

/-! ## The claims -/

/-- Claim C1, counterexample: the claim says a team qualifies only when its
most recent finished match ended 0-0, but `check_team_under_15` accepts any
Under 1.5 result — a last match that ended 1-0 three days ago qualifies even
though it was not a 0-0, so the claimed equivalence fails at this input. -/
theorem regressao_qualifies_on_one_goal :
    ¬(((check_team_under_15 [⟨⟨some 1, some 0⟩, 3⟩] 10).1 = true) ↔
      (is_exact_0x0_result ⟨⟨some 1, some 0⟩, 3⟩ = true ∧ (3 : Nat) ≤ 10)) := by
  decide

/-- Claim C1, amended: a team qualifies for regression-to-the-mean iff its
most recent finished match (head of the `get_team_recent_matches(team_id, 1)`
reply) had fewer than two total goals (Under 1.5: 0-0, 1-0 or 0-1) and is at
most `MAX_LAST_MATCH_AGE_DAYS` days old; with no finished match the team
never qualifies.  In particular a 2-1 never qualifies, a 0-0 eight days old
qualifies under the default 10-day maximum age, and the same 0-0 eleven days
old does not. -/
theorem check_team_under_15_spec :
    (∀ (m : LastMatch) (rest : List LastMatch) (max_age_days : Nat),
      ((check_team_under_15 (m :: rest) max_age_days).1 = true ↔
        (goal_or_zero m.goals.home + goal_or_zero m.goals.away < 2 ∧
          m.days_ago ≤ max_age_days))) ∧
    (∀ max_age_days, (check_team_under_15 [] max_age_days).1 = false) ∧
    (check_team_under_15 [⟨⟨some 2, some 1⟩, 3⟩] 10).1 = false ∧
    (check_team_under_15 [⟨⟨some 0, some 0⟩, 8⟩] 10).1 = true ∧
    (check_team_under_15 [⟨⟨some 0, some 0⟩, 11⟩] 10).1 = false := by
  refine ⟨?_, fun _ => rfl, by decide, by decide, by decide⟩
  intro m rest max_age_days
  by_cases h1 : is_under_15_result m
  · by_cases h2 : m.days_ago ≤ max_age_days
    · simp only [check_team_under_15, h1, if_true, h2]
      simp [is_under_15_result] at h1
      simp [h1, h2]
    · simp only [check_team_under_15, h1, if_true, h2]
      simp [h2]
  · simp only [check_team_under_15, h1]
    simp [is_under_15_result] at h1
    simp
    omega

/-- Claim C2: the quota gate in `src/utils/api_client.py` admits a request
exactly when `request_count` is strictly below the configured maximum — the
full limit, not 95 % of it — so at `used = 1900`, `limit = 2000` the code
still reaches the network (and succeeds) although `used/limit` equals the
documented `API_BLOCK_THRESHOLD` of 0.95, where the spec's `can_request`
refuses.  (The attribute the gate reads, `Config.MAX_API_REQUESTS`, is not
even defined by `src/config.py`, and `Config.API_BLOCK_THRESHOLD` is never
consulted anywhere in the sources.) -/
theorem quota_gate_full_limit_not_threshold :
    (make_request ⟨1900, empty_cache⟩ none 0 2000 [.resp 200 (some [7])]).network_attempts = 1 ∧
    (make_request ⟨1900, empty_cache⟩ none 0 2000 [.resp 200 (some [7])]).succeeded = true ∧
    can_request_spec 1900 2000 (19 / 20) = false ∧
    (∀ used maxr : Nat,
      (make_request ⟨used, empty_cache⟩ none 0 maxr [.resp 200 (some [7])]).network_attempts
        = if used < maxr then 1 else 0) := by
  refine ⟨rfl, rfl, ?_, ?_⟩
  · simp only [can_request_spec, decide_eq_false_iff_not, not_lt]
    norm_num
  intro used maxr
  by_cases h : maxr ≤ used
  · simp [make_request, h, Nat.not_lt.mpr h]
  · simp [make_request, h, request_loop, Nat.lt_of_not_le h]

/-- Claim C3: the client in `src/utils/api_client.py` never resets
`request_count` — the counter starts at 0 in `__init__` and is only ever
incremented, with no period-boundary check anywhere — so it is monotone
across every call, and a client with `used = 1500` still reports 1500 after
the clock (`now`) is advanced arbitrarily far past any period boundary,
where the spec requires 0. -/
theorem request_count_never_resets :
    (∀ (st : ClientState) (ck : Option (String × String)) (now : Int) (maxr : Nat)
        (outs : List HttpOutcome),
        st.request_count ≤ (make_request st ck now maxr outs).state.request_count) ∧
    (∀ now : Int,
        (make_request ⟨1500, empty_cache⟩ none now 2000 []).state.request_count = 1500) := by
  constructor
  · intro st ck now maxr outs
    have h := make_request_count st ck now maxr outs
    omega
  · intro now
    rfl

/-- Claim C4: the shipped source cannot deliver the claimed fail-soft
behaviour.  `src/config.py` defines neither `Config.MAX_API_REQUESTS` nor
`Config.API_REQUEST_DELAY`, so every cache-missing `_make_request` call
raises an uncaught `AttributeError` at the quota-gate line (before the
retry loop, outside any `try`), and even with the gate attribute supplied
the pacing line raises mid-retry as soon as a response has been received
(`request_count > 0`) — instead of returning the claimed empty result set.
The final conjunct shows the crash is the only deviation: with both
attributes defined, the call agrees exactly with `make_request`, whose
at-most-3-attempts, wait-schedule and fail-soft facts are
`make_request_attempts`, `request_loop_waits` and `request_loop_fail_soft`. -/
theorem make_request_attribute_error :
    (config_py.max_api_requests = none ∧ config_py.api_request_delay = none) ∧
    (∀ (st : ClientState) (now : Int) (outs : List HttpOutcome),
      make_request_py config_py st none now outs = .error "MAX_API_REQUESTS") ∧
    make_request_py config_py ⟨5, empty_cache⟩ (some ("k", "fixtures")) 0
        [HttpOutcome.resp 200 (some [1])] = .error "MAX_API_REQUESTS" ∧
    make_request_py ⟨some 2000, none⟩ ⟨0, empty_cache⟩ none 0
        [HttpOutcome.resp 429 none, HttpOutcome.exn, HttpOutcome.exn]
      = .error "API_REQUEST_DELAY" ∧
    (∀ (maxr d : Nat) (st : ClientState) (ck : Option (String × String)) (now : Int)
        (outs : List HttpOutcome),
      make_request_py ⟨some maxr, some d⟩ st ck now outs
        = .ok (make_request st ck now maxr outs)) :=
  ⟨⟨rfl, rfl⟩, fun _ _ _ => rfl, rfl, rfl, make_request_py_ok⟩

/-- Claim C5: the notification ledgers (`notified_matches` in the regression
module, `notified_fixtures` in the elite module) admit a fresh key, refuse a
key once it has been marked, and over any run of eligible matches send at
most one alert per key — zero if the key was already marked when the run
started. -/
theorem notification_dedup_spec :
    (∀ k : String, should_notify k [] = true) ∧
    (∀ (k : String) (notified : List String),
      should_notify k (mark_notified k notified) = false) ∧
    (∀ (k : String) (ms : List MatchAttempt) (notified : List String),
      (run_ledger ms notified).2.count k ≤ (if k ∈ notified then 0 else 1)) ∧
    (∀ (k : String) (ms : List MatchAttempt),
      (run_ledger ms (mark_notified k [])).2.count k = 0) := by
  refine ⟨fun k => rfl, ?_, fun k ms notified => run_ledger_count_le k ms notified, ?_⟩
  · intro k notified
    simp [should_notify, mark_notified]
  · intro k ms
    have h := run_ledger_count_le k ms (mark_notified k [])
    simpa [mark_notified] using h

/-- Claim C6: a cache lookup returns the stored value exactly when
`now - stored_at < ttl(category)` (fixtures 300 s, team_stats 3600 s,
league_stats 7200 s, team_info 86400 s); at or beyond the TTL the lookup
misses although the entry is still present (the lookup never mutates the
map); and a put overwrites both the stored value and the timestamp while
leaving every other key unchanged. -/
theorem cache_ttl_spec (c : Cache) (key cache_type : String) (now t : Int) (v : ApiData) :
    (c key = some (v, t) →
      (cache_lookup c key cache_type now = some v ↔ now - t < cache_durations cache_type)) ∧
    (cache_lookup (cache_put c key v t) key cache_type now
      = if now - t < cache_durations cache_type then some v else none) ∧
    cache_put c key v t key = some (v, t) ∧
    (∀ k2, k2 ≠ key → cache_put c key v t k2 = c k2) ∧
    (cache_durations "fixtures" = 300 ∧ cache_durations "team_stats" = 3600 ∧
      cache_durations "league_stats" = 7200 ∧ cache_durations "team_info" = 86400) := by
  refine ⟨?_, ?_, by simp [cache_put], ?_, by decide⟩
  · intro h
    unfold cache_lookup
    rw [h]
    by_cases hv : now - t < cache_durations cache_type
    · simp [is_cache_valid, hv]
    · simp [is_cache_valid, hv]
  · unfold cache_lookup cache_put
    by_cases hv : now - t < cache_durations cache_type
    · simp [is_cache_valid, hv]
    · simp [is_cache_valid, hv]
  · intro k2 hk
    simp [cache_put, hk]

/-- Witness for C6: a value stored at t = 100 in the `fixtures` category is
returned at t = 200 (within the 300 s TTL) and missed at t = 400. -/
theorem cache_ttl_spec_witness :
    (cache_put empty_cache "k" [5] 100 "k" = some ([5], 100)) ∧
    cache_lookup (cache_put empty_cache "k" [5] 100) "k" "fixtures" 200 = some [5] ∧
    cache_lookup (cache_put empty_cache "k" [5] 100) "k" "fixtures" 400 = none := by
  have h := cache_ttl_spec empty_cache "k" "fixtures" 200 100 [5]
  have h2 := cache_ttl_spec empty_cache "k" "fixtures" 400 100 [5]
  refine ⟨h.2.2.1, ?_, ?_⟩
  · rw [h.2.1]; norm_num [cache_durations]
  · rw [h2.2.1]; norm_num [cache_durations]

/-- Claim C7, counterexample: a fixture whose only factor is the home team's
qualifying 0-0 — one factor by the claim's counting — is tiered "ALTA" by
the code (via the priority-MÁXIMA branch), not the "MÉDIA" the claim assigns
to fewer than two factors. -/
theorem confidence_single_0x0_factor_alta :
    confidence ⟨true, some ⟨true, 3⟩, false, none, false, false⟩ = "ALTA" ∧
    claim_factor_count ⟨true, some ⟨true, 3⟩, false, none, false, false⟩ = 1 ∧
    claim_tier 1 = "MÉDIA" ∧ ("ALTA" : String) ≠ "MÉDIA" := by
  refine ⟨rfl, rfl, rfl, by decide⟩

/-- Claim C7, amended: the tier is a function of the four factors the code
counts — home last-match 0x0, away last-match 0x0 (a merely-Under-1.5 last
match contributes no factor), home on watchlist, away on watchlist: three or
more factors give "ALTÍSSIMA"; otherwise any 0x0 factor, or two factors,
give "ALTA"; otherwise "MÉDIA".  A fixture with neither side passing the
`check_team_under_15` last-match check is never alert-eligible, whatever its
watchlist memberships. -/
theorem confidence_tier_spec :
    (∀ e : RegressaoEval,
      confidence e = amended_tier (home_0x0_factor e) (away_0x0_factor e)
        e.home_watchlist e.away_watchlist) ∧
    (∀ (i1 i2 : Option QualInfo) (hw aw : Bool),
      alert_eligible ⟨false, i1, false, i2, hw, aw⟩ = false) ∧
    (∀ e : RegressaoEval, alert_eligible e = (e.home_under || e.away_under)) := by
  refine ⟨?_, fun _ _ _ _ => rfl, fun _ => rfl⟩
  intro e
  cases hhw : e.home_watchlist <;> cases haw : e.away_watchlist <;>
    cases hh0 : home_0x0_factor e <;> cases ha0 : away_0x0_factor e <;>
    simp [confidence, confidence_factors, priority_maxima, amended_tier, bcount,
      hhw, haw, hh0, ha0]

/-- Claim C8: when the requested key holds an unexpired cache entry,
`_make_request` returns the cached value with the client state unchanged and
no network attempt; and in every case the request counter grows by exactly
the number of attempts that received an HTTP response (an attempt whose
transport raised before a response never increments). -/
theorem cache_hit_frame_spec (st : ClientState) (key cache_type : String) (now : Int)
    (maxr : Nat) (outs : List HttpOutcome) (v : ApiData) (t : Int)
    (hentry : st.cache key = some (v, t))
    (hvalid : is_cache_valid now t cache_type = true) :
    ((make_request st (some (key, cache_type)) now maxr outs).value = v ∧
      (make_request st (some (key, cache_type)) now maxr outs).state = st ∧
      (make_request st (some (key, cache_type)) now maxr outs).network_attempts = 0 ∧
      (make_request st (some (key, cache_type)) now maxr outs).responses_received = 0) ∧
    (∀ (st2 : ClientState) (ck2 : Option (String × String)) (outs2 : List HttpOutcome),
      (make_request st2 ck2 now maxr outs2).state.request_count
        = st2.request_count + (make_request st2 ck2 now maxr outs2).responses_received) := by
  constructor
  · unfold make_request
    simp [hentry, hvalid]
  · intro st2 ck2 outs2
    exact make_request_count st2 ck2 now maxr outs2

/-- Witness for C8: with a valid entry for key "k" the call returns the
cached value, keeps `request_count` at 7 and attempts no network call. -/
theorem cache_hit_frame_spec_witness :
    ((cache_put empty_cache "k" [9] 100) "k" = some ([9], 100) ∧
      is_cache_valid 150 100 "fixtures" = true) ∧
    (make_request ⟨7, cache_put empty_cache "k" [9] 100⟩ (some ("k", "fixtures")) 150 2000
        [HttpOutcome.resp 200 (some [1])]).value = [9] ∧
    (make_request ⟨7, cache_put empty_cache "k" [9] 100⟩ (some ("k", "fixtures")) 150 2000
        [HttpOutcome.resp 200 (some [1])]).state.request_count = 7 ∧
    (make_request ⟨7, cache_put empty_cache "k" [9] 100⟩ (some ("k", "fixtures")) 150 2000
        [HttpOutcome.resp 200 (some [1])]).network_attempts = 0 := by
  have h := cache_hit_frame_spec ⟨7, cache_put empty_cache "k" [9] 100⟩ "k" "fixtures" 150 2000
    [HttpOutcome.resp 200 (some [1])] [9] 100 (by decide) (by decide)
  refine ⟨⟨by decide, by decide⟩, h.1.1, ?_, h.1.2.2.1⟩
  rw [h.1.2.1]

/-- Claim C9: `normalize_name` is idempotent — on character lists and on
strings — and identifies accent, case, punctuation and whitespace variants:
`normalize_name("São Paulo FC")` equals `normalize_name("sao paulo fc")`
(both are "sao paulo fc"). -/
theorem normalize_name_spec :
    (∀ l : List Char, normalize_name (normalize_name l) = normalize_name l) ∧
    (∀ s : String, normalize_name_str (normalize_name_str s) = normalize_name_str s) ∧
    normalize_name_str "São Paulo FC" = normalize_name_str "sao paulo fc" ∧
    normalize_name_str "São Paulo FC" = "sao paulo fc" := by
  refine ⟨normalize_name_idem, ?_, by decide, by decide⟩
  intro s
  show (⟨normalize_name (normalize_name s.data)⟩ : String) = ⟨normalize_name s.data⟩
  rw [normalize_name_idem]

/-- Claim C10: `calculate_risk_level` is total and closed over the four
labels: it answers "DESCONHECIDO" exactly when the percentage string fails
to parse after stripping percent signs, "BAIXO" when the parsed percentage
is at most 5 and `odd_justa` at most 1, "MODERADO" when not BAIXO but the
percentage is at most 7 and `odd_justa` at most 3, and "ALTO" otherwise. -/
theorem calculate_risk_level_spec (s : String) (odd_justa : Rat) :
    (calculate_risk_level s odd_justa = "BAIXO" ∨
      calculate_risk_level s odd_justa = "MODERADO" ∨
      calculate_risk_level s odd_justa = "ALTO" ∨
      calculate_risk_level s odd_justa = "DESCONHECIDO") ∧
    (py_float (strip_pct s.data) = none →
      calculate_risk_level s odd_justa = "DESCONHECIDO") ∧
    (∀ p : Rat, py_float (strip_pct s.data) = some p →
      (calculate_risk_level s odd_justa = "BAIXO" ↔ p ≤ 5 ∧ odd_justa ≤ 1) ∧
      (calculate_risk_level s odd_justa = "MODERADO" ↔
        ¬(p ≤ 5 ∧ odd_justa ≤ 1) ∧ (p ≤ 7 ∧ odd_justa ≤ 3)) ∧
      (calculate_risk_level s odd_justa = "ALTO" ↔
        ¬(p ≤ 5 ∧ odd_justa ≤ 1) ∧ ¬(p ≤ 7 ∧ odd_justa ≤ 3))) := by
  unfold calculate_risk_level
  cases hp : py_float (strip_pct s.data) with
  | none => simp
  | some p =>
    refine ⟨?_, by simp, ?_⟩
    · by_cases h1 : p ≤ 5 ∧ odd_justa ≤ 1
      · simp [h1]
      · by_cases h2 : p ≤ 7 ∧ odd_justa ≤ 3
        · simp [h1, h2]
        · simp [h1, h2]
    · intro q hq
      injection hq with hq
      subst hq
      by_cases h1 : p ≤ 5 ∧ odd_justa ≤ 1
      · simp [h1]
      · by_cases h2 : p ≤ 7 ∧ odd_justa ≤ 3
        · simp [h1, h2]
        · simp [h1, h2]

/-- Witness for C10 on watchlist rows: ("2.63%", 0.67) is BAIXO,
("6.48%", 2.33) is MODERADO, ("8.33%", 12.00) is ALTO, and an unparsable
percentage string is DESCONHECIDO. -/
theorem calculate_risk_level_spec_witness :
    calculate_risk_level "2.63%" (67/100) = "BAIXO" ∧
    calculate_risk_level "6.48%" (233/100) = "MODERADO" ∧
    calculate_risk_level "8.33%" 12 = "ALTO" ∧
    calculate_risk_level "abc" 1 = "DESCONHECIDO" := by
  have e1 : py_float (strip_pct ("2.63%").data)
      = some ((digits_value ['2'] : Rat) + (digits_value ['6', '3'] : Rat) / 10 ^ 2) := rfl
  have e2 : py_float (strip_pct ("6.48%").data)
      = some ((digits_value ['6'] : Rat) + (digits_value ['4', '8'] : Rat) / 10 ^ 2) := rfl
  have e3 : py_float (strip_pct ("8.33%").data)
      = some ((digits_value ['8'] : Rat) + (digits_value ['3', '3'] : Rat) / 10 ^ 2) := rfl
  have d2 : digits_value ['2'] = 2 := rfl
  have d63 : digits_value ['6', '3'] = 63 := rfl
  have d6 : digits_value ['6'] = 6 := rfl
  have d48 : digits_value ['4', '8'] = 48 := rfl
  have d8 : digits_value ['8'] = 8 := rfl
  have d33 : digits_value ['3', '3'] = 33 := rfl
  rw [d2, d63] at e1
  rw [d6, d48] at e2
  rw [d8, d33] at e3
  have h1 := (calculate_risk_level_spec "2.63%" (67/100)).2.2 _ e1
  have h2 := (calculate_risk_level_spec "6.48%" (233/100)).2.2 _ e2
  have h3 := (calculate_risk_level_spec "8.33%" 12).2.2 _ e3
  have h4 := (calculate_risk_level_spec "abc" 1).2.1 rfl
  refine ⟨h1.1.mpr (by constructor <;> norm_num), h2.2.1.mpr ?_, h3.2.2.mpr ?_, h4⟩
  · constructor
    · norm_num
    · constructor <;> norm_num
  · constructor <;> norm_num

end Bot3em1
